import Mathlib

/-!
Shallow embedding of `src/p4.py`, a Flask + SQLAlchemy + Redis user CRUD
service with a cache-aside policy.  Strings are `String`/`List Char`,
the relational table is a list of records, the Redis cache is an
association list of key, value and TTL, and every route handler is a
pure function from state and request to response, new state and a trace
of store/cache accesses.  The per-request failure of the database commit
(`SQLAlchemyError` other than `IntegrityError`) is an explicit boolean
oracle passed to each mutating operation.
-/

namespace P4

/-! ### The email regular expression, `is_valid_email` (p4.py line 33-34)

The source pattern is the raw string `r'^[a-zA-Z0-9_.+-]+@[a-zA-Z0-9-]+\\.[a-zA-Z0-9-.]+$'`.
Because it is a raw string, `\\.` is two regex tokens: `\\` (one literal
backslash character) followed by `.` (any character except a newline).
The matcher below embeds exactly that compiled pattern, including
Python's `$`, which matches at the end of the string or just before a
single trailing newline. -/

/-- Characters of the class `[a-zA-Z0-9_.+-]`. -/
def isLocalChar (c : Char) : Bool :=
  c.isAlpha || c.isDigit || c = '_' || c = '.' || c = '+' || c = '-'

/-- Characters of the class `[a-zA-Z0-9-]`. -/
def isHostChar (c : Char) : Bool :=
  c.isAlpha || c.isDigit || c = '-'

/-- Characters of the class `[a-zA-Z0-9-.]`. -/
def isSuffixChar (c : Char) : Bool :=
  c.isAlpha || c.isDigit || c = '-' || c = '.'

/-- After at least one suffix character has been consumed: zero or more
further suffix characters, then `$` (end of string, or a lone trailing
newline). -/
def suffixEndRest : List Char → Bool
  | [] => true
  | ['\n'] => true
  | c :: rest => isSuffixChar c && suffixEndRest rest

/-- `[a-zA-Z0-9-.]+$`: one or more suffix characters up to the end. -/
def matchSPlusEnd : List Char → Bool
  | [] => false
  | c :: rest => isSuffixChar c && suffixEndRest rest

/-- `\\.[a-zA-Z0-9-.]+$` as the source's raw string compiles it: a
literal backslash character, then any character except newline, then the
suffix segment. -/
def matchTail : List Char → Bool
  | '\\' :: d :: rest => d != '\n' && matchSPlusEnd rest
  | _ => false

/-- The tail the spec describes instead: a literal dot, then one or more
suffix characters, ending the string. -/
def dotTail : List Char → Bool
  | '.' :: rest => rest ≠ [] && rest.all isSuffixChar
  | _ => false

/-- `[a-zA-Z0-9-]+` followed by a given tail: at least one host
character, and after some nonempty prefix of host characters the tail
matches (existential split, as regex backtracking). -/
def hostSeg (tail : List Char → Bool) : List Char → Bool
  | [] => false
  | c :: rest => isHostChar c && (tail rest || hostSeg tail rest)

/-- The literal `@` followed by the host segment. -/
def afterAt (tail : List Char → Bool) : List Char → Bool
  | '@' :: rest => hostSeg tail rest
  | _ => false

/-- `[a-zA-Z0-9_.+-]+` followed by a continuation. -/
def localSeg (next : List Char → Bool) : List Char → Bool
  | [] => false
  | c :: rest => isLocalChar c && (next rest || localSeg next rest)

/-- `is_valid_email` from p4.py line 33-34: `re.match` of the compiled
pattern against the whole string, with the `\\.` of the raw source
string matching a literal backslash and then any character. -/
def is_valid_email (email : String) : Bool :=
  localSeg (afterAt matchTail) email.data

/-- The validator the spec's words describe: identical except that the
pre-suffix dot is a literal dot, and the suffix segment runs to the end
of the string. -/
def spec_email_ok (email : String) : Bool :=
  localSeg (afterAt dotTail) email.data

/-! ### Python runtime values for the `age` field

`data['age']` is an arbitrary JSON value.  The source checks
`isinstance(data['age'], int)`; in Python `bool` is a subclass of `int`,
so booleans pass that check and compare as `True = 1`, `False = 0`.
JSON numbers with a fractional part arrive as Python floats and fail
the check regardless of value, so the model does not carry their value. -/

inductive JVal where
  | jint (n : Int)
  | jbool (b : Bool)
  | jfloat
  | jstr (s : String)
  | jnull
deriving DecidableEq, Repr

/-- `isinstance(v, int)` in Python: true for `int` and for `bool`. -/
def pyIsInt : JVal → Bool
  | .jint _ => true
  | .jbool _ => true
  | _ => false

/-- The integer value Python uses when an `int`-instance is compared or
stored (`True` is `1`, `False` is `0`); irrelevant for other values. -/
def pyToInt : JVal → Int
  | .jint n => n
  | .jbool b => if b then 1 else 0
  | _ => 0

/-- The age check shared by create (line 43) and update (line 90):
`isinstance(data['age'], int) and data['age'] > 0` (the source rejects
on `not isinstance(...) or ... <= 0`). -/
def age_ok (v : JVal) : Bool :=
  pyIsInt v && decide (0 < pyToInt v)

/-! ### Data model and state

The `User` table row (p4.py lines 27-31): string primary key `id`,
`name`, unique `email`, integer `age`.  The request handlers never
validate the type of `name`; the model restricts it to text, which is
what every claim about it concerns.  `age` is stored through the
`Integer` column, i.e. at its Python integer value. -/

structure UserRec where
  id : String
  name : String
  email : String
  age : Int
deriving DecidableEq, Repr

/-- A parsed JSON request body: which of the three known keys are
present, and with what values.  `none` at a field means the key is
absent.  A whole-body `Option` at the call sites distinguishes a missing
or empty (falsy) body from a nonempty one. -/
structure ReqBody where
  name : Option String
  email : Option String
  age : Option JVal
deriving DecidableEq, Repr

/-- One Redis entry: key, cached user payload, remaining TTL as set. -/
abbrev Cache := List (String × UserRec × Nat)

structure St where
  store : List UserRec
  cache : Cache
deriving DecidableEq, Repr

/-- Store and cache accesses a handler performs, in order. -/
inductive Ev where
  | dbRead | dbWrite | cacheRead | cacheWrite | cacheDelete
deriving DecidableEq, Repr

/-- `CACHE_TIMEOUT = 300` (p4.py line 24). -/
def CACHE_TIMEOUT : Nat := 300

/-- The Redis key `f'user:{id}'`. -/
def cacheKey (uid : String) : String := "user:" ++ uid

/-- `redis_client.get(key)`. -/
def redisGet (c : Cache) (k : String) : Option (UserRec × Nat) :=
  (c.find? (fun e => e.1 == k)).map (fun e => e.2)

/-- `redis_client.setex(key, ttl, value)`: set, replacing any previous
entry for the key. -/
def redisSetex (c : Cache) (k : String) (v : UserRec) (ttl : Nat) : Cache :=
  (k, v, ttl) :: c.filter (fun e => e.1 != k)

/-- `redis_client.delete(key)`: remove the entry if present; deleting an
absent key is a no-op, never an error. -/
def redisDel (c : Cache) (k : String) : Cache :=
  c.filter (fun e => e.1 != k)

/-- `User.query...filter_by(id=uid).first()` / `User.query.get(uid)`. -/
def findUser (store : List UserRec) (uid : String) : Option UserRec :=
  store.find? (fun v => v.id == uid)

/-- The responses the handlers produce, one constructor per distinct
status/body pair of p4.py. -/
inductive Resp where
  | created (u : UserRec)   -- 201, entity body
  | ok (u : UserRec)        -- 200, entity body
  | deletedOk               -- 200 message on delete
  | missingFields           -- 400 on create
  | invalidEmail            -- 400
  | invalidAge              -- 400
  | noData                  -- 400 on update
  | emailExists             -- 400, IntegrityError branch
  | dbError                 -- 500, SQLAlchemyError branch
  | notFound                -- 404
deriving DecidableEq, Repr

/-- Validation of an optional email field on update (lines 85-87):
a present email must pass `is_valid_email`; an absent one is skipped. -/
def emailFieldOk : Option String → Bool
  | some em => is_valid_email em
  | none => true

/-- Validation of an optional age field on update (lines 89-91). -/
def ageFieldOk : Option JVal → Bool
  | some a => age_ok a
  | none => true

/-- The in-place field assignments of update (lines 83-92): each present
field overwrites the row's field, `age` at its Python integer value. -/
def applyPatch (u : UserRec) (d : ReqBody) : UserRec :=
  let u1 := match d.name with | some nm => { u with name := nm } | none => u
  let u2 := match d.email with | some em => { u1 with email := em } | none => u1
  match d.age with | some ag => { u2 with age := pyToInt ag } | none => u2

/-! ### Route handlers

Each handler returns `(response, new state, access trace)`.  `dbFail`
is true when the commit raises a `SQLAlchemyError` that is not an
`IntegrityError`; the `IntegrityError` case is determined by the data
(a duplicate email or id among the other committed rows).  Every `except`
branch of the source rolls the session back, so the state is returned
unchanged there. -/

/-- `POST /users` (p4.py lines 36-57).  `newId` is the generated
`str(uuid.uuid4())`. -/
def create_user (st : St) (body : Option ReqBody) (newId : String) (dbFail : Bool) :
    Resp × St × List Ev :=
  match body with
  | none => (.missingFields, st, [])
  | some d =>
    match d.name, d.email, d.age with
    | some nm, some em, some ag =>
      if !is_valid_email em then (.invalidEmail, st, [])
      else if !age_ok ag then (.invalidAge, st, [])
      else if dbFail then (.dbError, st, [.dbWrite])
      else if st.store.any (fun v => v.email == em || v.id == newId) then
        (.emailExists, st, [.dbWrite])
      else
        (.created ⟨newId, nm, em, pyToInt ag⟩,
         ⟨st.store ++ [⟨newId, nm, em, pyToInt ag⟩],
          redisSetex st.cache (cacheKey newId) ⟨newId, nm, em, pyToInt ag⟩ CACHE_TIMEOUT⟩,
         [.dbWrite, .cacheWrite])
    | _, _, _ => (.missingFields, st, [])

/-- `GET /users/<user_id>` (p4.py lines 59-71): probe the cache; on a
hit return the cached payload without touching the table; on a miss read
the table, and on a found row write it back with the full TTL. -/
def get_user (st : St) (uid : String) : Resp × St × List Ev :=
  match redisGet st.cache (cacheKey uid) with
  | some (u, _) => (.ok u, st, [.cacheRead])
  | none =>
    match findUser st.store uid with
    | none => (.notFound, st, [.cacheRead, .dbRead])
    | some u =>
      (.ok u,
       ⟨st.store, redisSetex st.cache (cacheKey u.id) u CACHE_TIMEOUT⟩,
       [.cacheRead, .dbRead, .cacheWrite])

/-- `PUT /users/<user_id>` (p4.py lines 73-103).  The source assigns
`user.name` before validating `email` and `age`, but a validation
failure returns without committing, so the table is unchanged there;
the model validates the present fields and then applies the patch,
which is observationally the same. -/
def update_user (st : St) (uid : String) (body : Option ReqBody) (dbFail : Bool) :
    Resp × St × List Ev :=
  match body with
  | none => (.noData, st, [])
  | some d =>
    match findUser st.store uid with
    | none => (.notFound, st, [.dbRead])
    | some u =>
      if !emailFieldOk d.email then (.invalidEmail, st, [.dbRead])
      else if !ageFieldOk d.age then (.invalidAge, st, [.dbRead])
      else if dbFail then (.dbError, st, [.dbRead, .dbWrite])
      else if st.store.any (fun v => v.id != uid && v.email == (applyPatch u d).email) then
        (.emailExists, st, [.dbRead, .dbWrite])
      else
        (.ok (applyPatch u d),
         ⟨st.store.map (fun v => if v.id == uid then applyPatch u d else v),
          redisDel st.cache (cacheKey uid)⟩,
         [.dbRead, .dbWrite, .cacheDelete])

/-- `DELETE /users/<user_id>` (p4.py lines 105-118). -/
def delete_user (st : St) (uid : String) (dbFail : Bool) : Resp × St × List Ev :=
  match findUser st.store uid with
  | none => (.notFound, st, [.dbRead])
  | some _ =>
    if dbFail then (.dbError, st, [.dbRead, .dbWrite])
    else
      (.deletedOk,
       ⟨st.store.filter (fun v => v.id != uid), redisDel st.cache (cacheKey uid)⟩,
       [.dbRead, .dbWrite, .cacheDelete])

/-- `GET /users` (p4.py lines 120-123): read every row directly from
the table; the cache is neither read nor written. -/
def get_all_users (st : St) : List UserRec × St × List Ev :=
  (st.store, st, [.dbRead])

/-- Responses of the validation layer (the 400s that precede any commit
attempt). -/
def isValidationErr : Resp → Bool
  | .missingFields => true
  | .invalidEmail => true
  | .invalidAge => true
  | .noData => true
  | _ => false

/-! ### Helper lemmas about the cache and the table -/

theorem redisGet_setex_self (c : Cache) (k : String) (v : UserRec) (t : Nat) :
    redisGet (redisSetex c k v t) k = some (v, t) := by
  simp [redisGet, redisSetex, List.find?]

theorem redisGet_del_self (c : Cache) (k : String) :
    redisGet (redisDel c k) k = none := by
  rw [redisGet, redisDel]
  have h : List.find? (fun e => e.1 == k) (c.filter (fun e => e.1 != k)) = none := by
    rw [List.find?_eq_none]
    intro e he
    rcases List.mem_filter.mp he with ⟨-, hne⟩
    simpa using hne
  rw [h]
  rfl

theorem redisDel_of_absent (c : Cache) (k : String) (h : redisGet c k = none) :
    redisDel c k = c := by
  rw [redisDel, List.filter_eq_self]
  intro e he
  rw [redisGet] at h
  cases hf : List.find? (fun e => e.1 == k) c with
  | some e' => rw [hf] at h; simp at h
  | none =>
    have := List.find?_eq_none.mp hf e he
    simpa using this

theorem findUser_id (l : List UserRec) (uid : String) (u : UserRec)
    (h : findUser l uid = some u) : u.id = uid := by
  rw [findUser] at h
  simpa using List.find?_some h

theorem findUser_filter_self (l : List UserRec) (uid : String) :
    findUser (l.filter (fun v => v.id != uid)) uid = none := by
  rw [findUser, List.find?_eq_none]
  intro v hv
  rcases List.mem_filter.mp hv with ⟨-, hne⟩
  simpa using hne

theorem findUser_map_update (l : List UserRec) (uid : String) (u w : UserRec)
    (hfind : findUser l uid = some u) (hid : w.id = uid) :
    findUser (l.map (fun v => if v.id == uid then w else v)) uid = some w := by
  induction l with
  | nil => simp [findUser] at hfind
  | cons a l ih =>
    rw [findUser] at hfind ⊢
    rw [List.map_cons]
    by_cases h : (a.id == uid) = true
    · rw [if_pos h]
      have hw : (w.id == uid) = true := by simp [hid]
      rw [List.find?_cons_of_pos (p := fun (v : UserRec) => v.id == uid) _ hw]
    · rw [List.find?_cons_of_neg (p := fun (v : UserRec) => v.id == uid) _ h] at hfind
      rw [if_neg h, List.find?_cons_of_neg (p := fun (v : UserRec) => v.id == uid) _ h]
      exact ih hfind

theorem findUser_append_self (l : List UserRec) (u : UserRec)
    (h : findUser l u.id = none) :
    findUser (l ++ [u]) u.id = some u := by
  rw [findUser, List.find?_append]
  rw [findUser] at h
  rw [h]
  simp [List.find?]

theorem applyPatch_id (u : UserRec) (d : ReqBody) : (applyPatch u d).id = u.id := by
  rcases d with ⟨n, e, a⟩
  rw [applyPatch]
  cases n <;> cases e <;> cases a <;> rfl

theorem applyPatch_name (u : UserRec) (d : ReqBody) :
    (applyPatch u d).name = d.name.getD u.name := by
  rcases d with ⟨n, e, a⟩
  rw [applyPatch]
  cases n <;> cases e <;> cases a <;> rfl

theorem applyPatch_email (u : UserRec) (d : ReqBody) :
    (applyPatch u d).email = d.email.getD u.email := by
  rcases d with ⟨n, e, a⟩
  rw [applyPatch]
  cases n <;> cases e <;> cases a <;> rfl

theorem applyPatch_age (u : UserRec) (d : ReqBody) :
    (applyPatch u d).age = (d.age.map pyToInt).getD u.age := by
  rcases d with ⟨n, e, a⟩
  rw [applyPatch]
  cases n <;> cases e <;> cases a <;> rfl

/-- Any outcome of update that is not a 200 leaves the whole state (table
and cache) as it was; only the committed branch changes anything. -/
theorem update_user_state_or_ok (st : St) (uid : String) (body : Option ReqBody) (f : Bool) :
    (update_user st uid body f).2.1 = st ∨
    (∃ v, (update_user st uid body f).1 = .ok v) := by
  rcases body with _ | d
  · exact Or.inl rfl
  · cases hfu : findUser st.store uid with
    | none => exact Or.inl (by simp [update_user, hfu])
    | some u =>
      simp only [update_user, hfu]
      by_cases h1 : (!emailFieldOk d.email) = true
      · rw [if_pos h1]; exact Or.inl rfl
      · rw [if_neg h1]
        by_cases h2 : (!ageFieldOk d.age) = true
        · rw [if_pos h2]; exact Or.inl rfl
        · rw [if_neg h2]
          cases f with
          | true => exact Or.inl rfl
          | false =>
            rw [if_neg (by simp)]
            by_cases h3 :
                (st.store.any fun v => v.id != uid && v.email == (applyPatch u d).email) = true
            · rw [if_pos h3]; exact Or.inl rfl
            · rw [if_neg h3]; exact Or.inr ⟨_, rfl⟩

/-- Any outcome of create that is not a 201 leaves the whole state as it
was and performs no cache write. -/
theorem create_user_failure_frame (st : St) (body : Option ReqBody) (nid : String) (f : Bool) :
    (∃ v, (create_user st body nid f).1 = .created v) ∨
    ((create_user st body nid f).2.1 = st ∧
     Ev.cacheWrite ∉ (create_user st body nid f).2.2) := by
  rcases body with _ | d
  · exact Or.inr ⟨rfl, by simp [create_user]⟩
  · rcases d with ⟨n, e, a⟩
    rcases n with _ | nm <;> rcases e with _ | em <;> rcases a with _ | ag <;>
      try exact Or.inr ⟨rfl, by simp [create_user]⟩
    simp only [create_user]
    by_cases h1 : (!is_valid_email em) = true
    · rw [if_pos h1]; exact Or.inr ⟨rfl, by simp⟩
    · rw [if_neg h1]
      by_cases h2 : (!age_ok ag) = true
      · rw [if_pos h2]; exact Or.inr ⟨rfl, by simp⟩
      · rw [if_neg h2]
        cases f with
        | true => exact Or.inr ⟨rfl, by simp⟩
        | false =>
          rw [if_neg (by simp)]
          by_cases h3 : (st.store.any fun v => v.email == em || v.id == nid) = true
          · rw [if_pos h3]; exact Or.inr ⟨rfl, by simp⟩
          · rw [if_neg h3]; exact Or.inl ⟨_, rfl⟩

/-! ### Concrete fixtures

`aliceMail` is an address the code's compiled pattern accepts: because
of the `\\.` in the raw source string, an accepted address must contain
a literal backslash where the spec expects the dot to be literal. -/

def aliceMail : String := "alice@example\\.com"

def u0 : UserRec := ⟨"u1", "Alice", aliceMail, 30⟩

def st0 : St := ⟨[u0], []⟩

/-! ### Claims -/

/-- C1: the spec says the email validator accepts exactly the strings
matching `[A-Za-z0-9_.+-]+@[A-Za-z0-9-]+` then a LITERAL dot then
`[A-Za-z0-9-.]+`, accepting "a@b.c".  The code's pattern is written
inside a raw string, so its `\\.` compiles to a literal backslash
followed by an any-character wildcard: the code rejects "a@b.c" and
instead accepts "a@b\.c".  The spec's intent (a literal dot, function
named `is_valid_email`) is clear, and the code is a raw-string escaping
slip. -/
theorem C1_email_regex_backslash :
    is_valid_email "a@b.c" = false ∧
    spec_email_ok "a@b.c" = true ∧
    is_valid_email "a@b\\.c" = true ∧
    spec_email_ok "a@b\\.c" = false ∧
    is_valid_email "not-an-email" = false ∧
    spec_email_ok "not-an-email" = false := by decide

/-- C2: the read path is cache-aside: a cache hit is returned without
touching the table; a miss with no row returns `notFound` and writes
nothing to the cache; a miss with a row returns it and repopulates the
cache at the full TTL of 300 seconds. -/
theorem C2_get_user_cache_aside (st : St) (uid : String) :
    CACHE_TIMEOUT = 300 ∧
    (∀ u t, redisGet st.cache (cacheKey uid) = some (u, t) →
      get_user st uid = (.ok u, st, [.cacheRead])) ∧
    (redisGet st.cache (cacheKey uid) = none → findUser st.store uid = none →
      get_user st uid = (.notFound, st, [.cacheRead, .dbRead])) ∧
    (∀ u, redisGet st.cache (cacheKey uid) = none → findUser st.store uid = some u →
      get_user st uid =
        (.ok u, ⟨st.store, redisSetex st.cache (cacheKey u.id) u CACHE_TIMEOUT⟩,
         [.cacheRead, .dbRead, .cacheWrite])) := by
  refine ⟨rfl, ?_, ?_, ?_⟩
  · intro u t h
    simp [get_user, h]
  · intro h1 h2
    simp [get_user, h1, h2]
  · intro u h1 h2
    simp [get_user, h1, h2]

/-- Witness for C2 at a concrete state: one user in the table, an empty
cache; the read returns the row and populates the cache. -/
theorem C2_witness :
    get_user st0 "u1" =
      (.ok u0, ⟨st0.store, redisSetex st0.cache (cacheKey u0.id) u0 CACHE_TIMEOUT⟩,
       [.cacheRead, .dbRead, .cacheWrite]) :=
  (C2_get_user_cache_aside st0 "u1").2.2.2 u0 (by decide) (by decide)

/-- C3: a successful update applies exactly the present fields, keeps
absent fields and the id unchanged, and invalidates (deletes, not
refreshes) the cache entry for the id, so a following read returns the
updated record; every failing update leaves the state untouched. -/
theorem C3_update_partial_and_invalidate (st : St) (uid : String) (d : ReqBody) (u : UserRec)
    (hu : findUser st.store uid = some u)
    (hem : emailFieldOk d.email = true)
    (hag : ageFieldOk d.age = true)
    (hnc : (st.store.any fun v => v.id != uid && v.email == (applyPatch u d).email) = false) :
    update_user st uid (some d) false =
      (.ok (applyPatch u d),
       ⟨st.store.map (fun v => if v.id == uid then applyPatch u d else v),
        redisDel st.cache (cacheKey uid)⟩,
       [.dbRead, .dbWrite, .cacheDelete]) ∧
    (applyPatch u d).id = u.id ∧
    (applyPatch u d).name = d.name.getD u.name ∧
    (applyPatch u d).email = d.email.getD u.email ∧
    (applyPatch u d).age = (d.age.map pyToInt).getD u.age ∧
    (get_user (update_user st uid (some d) false).2.1 uid).1 = .ok (applyPatch u d) ∧
    (∀ body f, (∀ v, (update_user st uid body f).1 ≠ .ok v) →
       (update_user st uid body f).2.1 = st) := by
  have hmain : update_user st uid (some d) false =
      (.ok (applyPatch u d),
       ⟨st.store.map (fun v => if v.id == uid then applyPatch u d else v),
        redisDel st.cache (cacheKey uid)⟩,
       [.dbRead, .dbWrite, .cacheDelete]) := by
    simp [update_user, hu, hem, hag, hnc]
  have hid : (applyPatch u d).id = uid :=
    (applyPatch_id u d).trans (findUser_id _ _ _ hu)
  refine ⟨hmain, (applyPatch_id u d), applyPatch_name u d, applyPatch_email u d,
    applyPatch_age u d, ?_, ?_⟩
  · rw [hmain]
    have hfind := findUser_map_update st.store uid u (applyPatch u d) hu hid
    simp only [get_user, redisGet_del_self, hfind]
  · intro body f hne
    rcases update_user_state_or_ok st uid body f with h | ⟨v, hv⟩
    · exact h
    · exact absurd hv (hne v)

/-- Witness for C3: a name-only patch on the one-user state. -/
theorem C3_witness :
    update_user st0 "u1" (some ⟨some "X", none, none⟩) false =
      (.ok (applyPatch u0 ⟨some "X", none, none⟩),
       ⟨st0.store.map (fun v => if v.id == "u1" then applyPatch u0 ⟨some "X", none, none⟩ else v),
        redisDel st0.cache (cacheKey "u1")⟩,
       [.dbRead, .dbWrite, .cacheDelete]) :=
  (C3_update_partial_and_invalidate st0 "u1" ⟨some "X", none, none⟩ u0
    (by decide) (by decide) (by decide) (by decide)).1

/-- C4: a successful create appends the new row and immediately caches
it under the new id at the full TTL (write-through), so a following read
of that id answers from the cache with the created record; any failing
create leaves the state untouched and never writes the cache. -/
theorem C4_create_write_through (st : St) (d : ReqBody) (nm em : String) (ag : JVal)
    (nid : String)
    (hn : d.name = some nm) (he : d.email = some em) (ha : d.age = some ag)
    (hev : is_valid_email em = true) (hav : age_ok ag = true)
    (hfresh : (st.store.any fun v => v.email == em || v.id == nid) = false) :
    create_user st (some d) nid false =
      (.created ⟨nid, nm, em, pyToInt ag⟩,
       ⟨st.store ++ [⟨nid, nm, em, pyToInt ag⟩],
        redisSetex st.cache (cacheKey nid) ⟨nid, nm, em, pyToInt ag⟩ CACHE_TIMEOUT⟩,
       [.dbWrite, .cacheWrite]) ∧
    (get_user (create_user st (some d) nid false).2.1 nid).1 = .ok ⟨nid, nm, em, pyToInt ag⟩ ∧
    (∀ body nid2 f, (∀ v, (create_user st body nid2 f).1 ≠ .created v) →
       (create_user st body nid2 f).2.1 = st ∧
       Ev.cacheWrite ∉ (create_user st body nid2 f).2.2) := by
  have hmain : create_user st (some d) nid false =
      (.created ⟨nid, nm, em, pyToInt ag⟩,
       ⟨st.store ++ [⟨nid, nm, em, pyToInt ag⟩],
        redisSetex st.cache (cacheKey nid) ⟨nid, nm, em, pyToInt ag⟩ CACHE_TIMEOUT⟩,
       [.dbWrite, .cacheWrite]) := by
    simp [create_user, hn, he, ha, hev, hav, hfresh]
  refine ⟨hmain, ?_, ?_⟩
  · rw [hmain]
    simp [get_user, redisGet_setex_self]
  · intro body nid2 f hne
    rcases create_user_failure_frame st body nid2 f with ⟨v, hv⟩ | h
    · exact absurd hv (hne v)
    · exact h

/-- Witness for C4: creating a fresh user in the empty state. -/
theorem C4_witness :
    create_user ⟨[], []⟩ (some ⟨some "Bob", some "b@c\\.de", some (.jint 5)⟩) "u2" false =
      (.created ⟨"u2", "Bob", "b@c\\.de", pyToInt (.jint 5)⟩,
       ⟨[] ++ [⟨"u2", "Bob", "b@c\\.de", pyToInt (.jint 5)⟩],
        redisSetex [] (cacheKey "u2") ⟨"u2", "Bob", "b@c\\.de", pyToInt (.jint 5)⟩ CACHE_TIMEOUT⟩,
       [.dbWrite, .cacheWrite]) :=
  (C4_create_write_through ⟨[], []⟩ ⟨some "Bob", some "b@c\\.de", some (.jint 5)⟩
    "Bob" "b@c\\.de" (.jint 5) "u2" rfl rfl rfl (by decide) (by decide) (by decide)).1

/-- Exhaustive outcome shapes of create: a validation error with empty
trace and unchanged state, a failed commit with only the commit attempt
in the trace, or a 201 whose trace is the commit then the cache write. -/
theorem create_user_outcomes (st : St) (body : Option ReqBody) (nid : String) (f : Bool) :
    (∃ r, (r = Resp.missingFields ∨ r = Resp.invalidEmail ∨ r = Resp.invalidAge) ∧
          create_user st body nid f = (r, st, [])) ∨
    create_user st body nid f = (.dbError, st, [.dbWrite]) ∨
    create_user st body nid f = (.emailExists, st, [.dbWrite]) ∨
    (∃ u, (create_user st body nid f).1 = .created u ∧
          (create_user st body nid f).2.2 = [.dbWrite, .cacheWrite]) := by
  rcases body with _ | ⟨n, e, a⟩
  · exact Or.inl ⟨.missingFields, by simp, by simp [create_user]⟩
  · rcases n with _ | nm
    · exact Or.inl ⟨.missingFields, by simp, by simp [create_user]⟩
    rcases e with _ | em
    · exact Or.inl ⟨.missingFields, by simp, by simp [create_user]⟩
    rcases a with _ | ag
    · exact Or.inl ⟨.missingFields, by simp, by simp [create_user]⟩
    cases hev : is_valid_email em with
    | false => exact Or.inl ⟨.invalidEmail, by simp, by simp [create_user, hev]⟩
    | true =>
      cases hav : age_ok ag with
      | false => exact Or.inl ⟨.invalidAge, by simp, by simp [create_user, hev, hav]⟩
      | true =>
        cases f with
        | true => exact Or.inr (Or.inl (by simp [create_user, hev, hav]))
        | false =>
          cases hc : (st.store.any fun v => v.email == em || v.id == nid) with
          | true => exact Or.inr (Or.inr (Or.inl (by simp [create_user, hev, hav, hc])))
          | false =>
            refine Or.inr (Or.inr (Or.inr ⟨⟨nid, nm, em, pyToInt ag⟩, ?_, ?_⟩)) <;>
              simp [create_user, hev, hav, hc]

/-- Exhaustive outcome shapes of update. -/
theorem update_user_outcomes (st : St) (uid : String) (body : Option ReqBody) (f : Bool) :
    update_user st uid body f = (.noData, st, []) ∨
    update_user st uid body f = (.notFound, st, [.dbRead]) ∨
    (∃ r, (r = Resp.invalidEmail ∨ r = Resp.invalidAge) ∧
          update_user st uid body f = (r, st, [.dbRead])) ∨
    update_user st uid body f = (.dbError, st, [.dbRead, .dbWrite]) ∨
    update_user st uid body f = (.emailExists, st, [.dbRead, .dbWrite]) ∨
    (∃ u, (update_user st uid body f).1 = .ok u ∧
          (update_user st uid body f).2.2 = [.dbRead, .dbWrite, .cacheDelete]) := by
  rcases body with _ | d
  · exact Or.inl (by simp [update_user])
  · cases hfu : findUser st.store uid with
    | none => exact Or.inr (Or.inl (by simp [update_user, hfu]))
    | some u =>
      cases hem : emailFieldOk d.email with
      | false =>
        exact Or.inr (Or.inr (Or.inl ⟨.invalidEmail, by simp, by simp [update_user, hfu, hem]⟩))
      | true =>
        cases hag : ageFieldOk d.age with
        | false =>
          exact Or.inr (Or.inr (Or.inl
            ⟨.invalidAge, by simp, by simp [update_user, hfu, hem, hag]⟩))
        | true =>
          cases f with
          | true => exact Or.inr (Or.inr (Or.inr (Or.inl
              (by simp [update_user, hfu, hem, hag]))))
          | false =>
            cases hc : (st.store.any fun v => v.id != uid && v.email == (applyPatch u d).email) with
            | true => exact Or.inr (Or.inr (Or.inr (Or.inr (Or.inl
                (by simp [update_user, hfu, hem, hag, hc])))))
            | false =>
              refine Or.inr (Or.inr (Or.inr (Or.inr (Or.inr ⟨applyPatch u d, ?_, ?_⟩)))) <;>
                simp [update_user, hfu, hem, hag, hc]

/-- Exhaustive outcome shapes of delete. -/
theorem delete_user_outcomes (st : St) (uid : String) (f : Bool) :
    delete_user st uid f = (.notFound, st, [.dbRead]) ∨
    delete_user st uid f = (.dbError, st, [.dbRead, .dbWrite]) ∨
    delete_user st uid f =
      (.deletedOk, ⟨st.store.filter (fun v => v.id != uid), redisDel st.cache (cacheKey uid)⟩,
       [.dbRead, .dbWrite, .cacheDelete]) := by
  cases hfu : findUser st.store uid with
  | none => exact Or.inl (by simp [delete_user, hfu])
  | some u =>
    cases f with
    | true => exact Or.inr (Or.inl (by simp [delete_user, hfu]))
    | false => exact Or.inr (Or.inr (by simp [delete_user, hfu]))

/-- C5 counterexample: on update of an existing id with an invalid
email, the validation failure is reported only after the Record Store
has been read (the existence query), contradicting "before any Record
Store or Cache Layer access". -/
theorem C5_counterexample :
    (update_user st0 "u1" (some ⟨none, some "not-an-email", none⟩) false).1 = .invalidEmail ∧
    Ev.dbRead ∈ (update_user st0 "u1" (some ⟨none, some "not-an-email", none⟩) false).2.2 := by
  decide

/-- C5 amended: every validation failure leaves the Record Store and the
Cache Layer exactly as they were; create's validation failures happen
before any store or cache access, while update's field validation may
follow the existence read (and nothing more); delete performs no
validation at all. -/
theorem C5_validation_failures_leave_stores (st : St) :
    (∀ body nid f, isValidationErr (create_user st body nid f).1 = true →
       (create_user st body nid f).2.1 = st ∧ (create_user st body nid f).2.2 = []) ∧
    (∀ uid body f, isValidationErr (update_user st uid body f).1 = true →
       (update_user st uid body f).2.1 = st ∧
       ((update_user st uid body f).2.2 = [] ∨ (update_user st uid body f).2.2 = [Ev.dbRead])) ∧
    (∀ uid f, isValidationErr (delete_user st uid f).1 = false) := by
  refine ⟨?_, ?_, ?_⟩
  · intro body nid f h
    rcases create_user_outcomes st body nid f with ⟨r, _, heq⟩ | heq | heq | ⟨u, h1, _⟩
    · rw [heq]; exact ⟨rfl, rfl⟩
    · rw [heq] at h; simp [isValidationErr] at h
    · rw [heq] at h; simp [isValidationErr] at h
    · rw [h1] at h; simp [isValidationErr] at h
  · intro uid body f h
    rcases update_user_outcomes st uid body f with
      heq | heq | ⟨r, hr, heq⟩ | heq | heq | ⟨u, h1, _⟩
    · rw [heq]; exact ⟨rfl, Or.inl rfl⟩
    · rw [heq] at h; simp [isValidationErr] at h
    · rw [heq]; exact ⟨rfl, Or.inr rfl⟩
    · rw [heq] at h; simp [isValidationErr] at h
    · rw [heq] at h; simp [isValidationErr] at h
    · rw [h1] at h; simp [isValidationErr] at h
  · intro uid f
    rcases delete_user_outcomes st uid f with heq | heq | heq <;> rw [heq] <;> rfl

/-- Witness for C5 amended: a create with a missing field in the
one-user state changes nothing and accesses nothing. -/
theorem C5_witness :
    (create_user st0 none "u9" false).2.1 = st0 ∧ (create_user st0 none "u9" false).2.2 = [] :=
  (C5_validation_failures_leave_stores st0).1 none "u9" false (by decide)

/-- C6: a create or update against an already-used email fails with the
409-like conflict response ("Email already exists", the IntegrityError
branch), any other storage failure with the distinct 500 response
("Database error"), and both roll back, leaving the state, hence the
originally committed entity, untouched. -/
theorem C6_conflict_vs_store_error (st : St) (d : ReqBody) (nm em : String) (ag : JVal)
    (nid uid : String) (u : UserRec)
    (hn : d.name = some nm) (he : d.email = some em) (ha : d.age = some ag)
    (hev : is_valid_email em = true) (hav : age_ok ag = true) :
    ((st.store.any fun v => v.email == em || v.id == nid) = true →
       create_user st (some d) nid false = (.emailExists, st, [.dbWrite])) ∧
    create_user st (some d) nid true = (.dbError, st, [.dbWrite]) ∧
    (findUser st.store uid = some u →
       (st.store.any fun v => v.id != uid && v.email == (applyPatch u d).email) = true →
       update_user st uid (some d) false = (.emailExists, st, [.dbRead, .dbWrite])) ∧
    (findUser st.store uid = some u →
       update_user st uid (some d) true = (.dbError, st, [.dbRead, .dbWrite])) ∧
    Resp.emailExists ≠ Resp.dbError := by
  have hem : emailFieldOk d.email = true := by rw [he]; simpa [emailFieldOk] using hev
  have hag : ageFieldOk d.age = true := by rw [ha]; simpa [ageFieldOk] using hav
  refine ⟨?_, ?_, ?_, ?_, by decide⟩
  · intro hc; simp [create_user, hn, he, ha, hev, hav, hc]
  · simp [create_user, hn, he, ha, hev, hav]
  · intro hu hc; simp [update_user, hu, hem, hag, hc]
  · intro hu; simp [update_user, hu, hem, hag]

/-- Witness for C6: creating a second user with the already-committed
email is rejected as a conflict and the state is unchanged. -/
theorem C6_witness :
    create_user st0 (some ⟨some "Eve", some aliceMail, some (.jint 2)⟩) "u3" false =
      (.emailExists, st0, [.dbWrite]) :=
  (C6_conflict_vs_store_error st0 ⟨some "Eve", some aliceMail, some (.jint 2)⟩ "Eve" aliceMail
    (.jint 2) "u3" "u1" u0 rfl rfl rfl (by decide) (by decide)).1 (by decide)

/-- C7 counterexample: the claim says booleans are rejected, but in
Python `bool` is a subclass of `int`, so `isinstance(True, int)` holds
and `True <= 0` is false: a create with `age := True` passes validation
and commits with age 1. -/
theorem C7_counterexample :
    age_ok (.jbool true) = true ∧
    (create_user ⟨[], []⟩ (some ⟨some "A", some "a@b\\.c", some (.jbool true)⟩) "u7" false).1
      = .created ⟨"u7", "A", "a@b\\.c", 1⟩ := by decide

/-- C7 amended: an age value is accepted exactly when it is of Python
integer type — which includes booleans, `True` counting as 1 (accepted)
and `False` as 0 (rejected) — and strictly greater than zero; floats,
strings and null are rejected; age 0 and -5 are rejected and 1 accepted,
on both create and update. -/
theorem C7_age_validation (st : St) (uid : String) (d : ReqBody) (u : UserRec) (f : Bool)
    (nm em : String) (ag : JVal) (nid : String) (n : Int) (s : String) :
    (d.name = some nm → d.email = some em → d.age = some ag →
      is_valid_email em = true → age_ok ag = false →
      create_user st (some d) nid f = (.invalidAge, st, [])) ∧
    (findUser st.store uid = some u → emailFieldOk d.email = true →
      d.age = some ag → age_ok ag = false →
      update_user st uid (some d) f = (.invalidAge, st, [.dbRead])) ∧
    age_ok (.jint n) = decide (0 < n) ∧
    age_ok (.jbool true) = true ∧
    age_ok (.jbool false) = false ∧
    age_ok .jfloat = false ∧
    age_ok (.jstr s) = false ∧
    age_ok .jnull = false ∧
    age_ok (.jint 0) = false ∧
    age_ok (.jint (-5)) = false ∧
    age_ok (.jint 1) = true := by
  refine ⟨?_, ?_, by simp [age_ok, pyIsInt, pyToInt], by decide, by decide, by decide,
    by simp [age_ok, pyIsInt], by decide, by decide, by decide, by decide⟩
  · intro hn he ha hev hav
    simp [create_user, hn, he, ha, hev, hav]
  · intro hu hem ha hav
    have hag : ageFieldOk d.age = false := by rw [ha]; simpa [ageFieldOk] using hav
    simp [update_user, hu, hem, hag]

/-- Witness for C7 amended: an update that supplies age 0 on an
existing id is rejected as an invalid age. -/
theorem C7_witness :
    update_user st0 "u1" (some ⟨none, none, some (.jint 0)⟩) false =
      (.invalidAge, st0, [.dbRead]) :=
  (C7_age_validation st0 "u1" ⟨none, none, some (.jint 0)⟩ u0 false "" "" (.jint 0) "" 0
    "").2.1 (by decide) (by decide) rfl (by decide)

/-- C8: deleting an existing id removes the row, unconditionally deletes
the cache key (absent-key deletion being a no-op, not an error) and
reports success; the id is then gone, so the second delete reports
`notFound`; deleting a nonexistent id reports `notFound`; and a store
failure rolls back, leaving the whole state untouched. -/
theorem C8_delete_idempotent (st : St) (uid : String) (u : UserRec)
    (hu : findUser st.store uid = some u) :
    delete_user st uid false =
      (.deletedOk, ⟨st.store.filter (fun v => v.id != uid), redisDel st.cache (cacheKey uid)⟩,
       [.dbRead, .dbWrite, .cacheDelete]) ∧
    findUser (delete_user st uid false).2.1.store uid = none ∧
    (delete_user (delete_user st uid false).2.1 uid false).1 = .notFound ∧
    (∀ uid2, findUser st.store uid2 = none →
       delete_user st uid2 false = (.notFound, st, [.dbRead])) ∧
    delete_user st uid true = (.dbError, st, [.dbRead, .dbWrite]) ∧
    (∀ k, redisGet st.cache k = none → redisDel st.cache k = st.cache) := by
  have hmain : delete_user st uid false =
      (.deletedOk, ⟨st.store.filter (fun v => v.id != uid), redisDel st.cache (cacheKey uid)⟩,
       [.dbRead, .dbWrite, .cacheDelete]) := by
    simp [delete_user, hu]
  have hgone : findUser (delete_user st uid false).2.1.store uid = none := by
    rw [hmain]; exact findUser_filter_self st.store uid
  refine ⟨hmain, hgone, ?_, ?_, ?_, ?_⟩
  · rw [hmain]
    simp [delete_user, findUser_filter_self]
  · intro uid2 h; simp [delete_user, h]
  · simp [delete_user, hu]
  · intro k h; exact redisDel_of_absent st.cache k h

/-- Witness for C8: deleting the one existing user succeeds and empties
its row and cache entry. -/
theorem C8_witness :
    delete_user st0 "u1" false =
      (.deletedOk, ⟨st0.store.filter (fun v => v.id != "u1"), redisDel st0.cache (cacheKey "u1")⟩,
       [.dbRead, .dbWrite, .cacheDelete]) :=
  (C8_delete_idempotent st0 "u1" u0 (by decide)).1

/-- C9 counterexample: the claim says every accepted entity has a
non-empty name, but create only checks that the `name` key is present,
so an empty name is accepted and committed, and update likewise applies
an empty name. -/
theorem C9_counterexample :
    (create_user ⟨[], []⟩ (some ⟨some "", some "a@b\\.c", some (.jint 1)⟩) "u9" false).1
      = .created ⟨"u9", "", "a@b\\.c", 1⟩ ∧
    (update_user st0 "u1" (some ⟨some "", none, none⟩) false).1
      = .ok ⟨"u1", "", aliceMail, 30⟩ := by decide

/-- C9 amended: create requires the `name` key to be present but never
validates its content — any text, including the empty string, is
accepted and stored; a create without the key is a `missingFields`
error; update applies whatever name is supplied, unchecked. -/
theorem C9_name_not_validated (st : St) (nm em : String) (ag : JVal) (nid uid : String)
    (u : UserRec)
    (hev : is_valid_email em = true) (hav : age_ok ag = true)
    (hfresh : (st.store.any fun v => v.email == em || v.id == nid) = false) :
    (create_user st (some ⟨some nm, some em, some ag⟩) nid false).1
      = .created ⟨nid, nm, em, pyToInt ag⟩ ∧
    create_user st (some ⟨none, some em, some ag⟩) nid false = (.missingFields, st, []) ∧
    (findUser st.store uid = some u →
      (st.store.any fun v =>
        v.id != uid && v.email == (applyPatch u ⟨some nm, none, none⟩).email) = false →
      (update_user st uid (some ⟨some nm, none, none⟩) false).1 = .ok { u with name := nm }) := by
  refine ⟨?_, ?_, ?_⟩
  · simp [create_user, hev, hav, hfresh]
  · simp [create_user]
  · intro hu hc
    simp only [update_user, hu]
    rw [if_neg (by simp [emailFieldOk]), if_neg (by simp [ageFieldOk]),
        if_neg (by simp), if_neg (by simp only [hc]; simp)]
    rfl

/-- Witness for C9 amended: a create whose name is the empty string is
accepted. -/
theorem C9_witness :
    (create_user ⟨[], []⟩ (some ⟨some "", some "b@c\\.d", some (.jint 2)⟩) "u9b" false).1
      = .created ⟨"u9b", "", "b@c\\.d", pyToInt (.jint 2)⟩ :=
  (C9_name_not_validated ⟨[], []⟩ "" "b@c\\.d" (.jint 2) "u9b" "zz" u0
    (by decide) (by decide) (by decide)).1

/-- C10: on update with a nonempty body the existence of the id is
checked before the patch fields are validated: a nonexistent id yields
`notFound` whatever the supplied fields, and an invalid-email or
invalid-age response can only arise when the id exists. -/
theorem C10_update_checks_existence_first (st : St) (uid : String) (d : ReqBody) (f : Bool) :
    (findUser st.store uid = none → update_user st uid (some d) f = (.notFound, st, [.dbRead])) ∧
    ((update_user st uid (some d) f).1 = .invalidEmail ∨
     (update_user st uid (some d) f).1 = .invalidAge →
       ∃ u, findUser st.store uid = some u) := by
  constructor
  · intro h; simp [update_user, h]
  · intro h
    cases hfu : findUser st.store uid with
    | some u => exact ⟨u, rfl⟩
    | none =>
      have heq : update_user st uid (some d) f = (.notFound, st, [.dbRead]) := by
        simp [update_user, hfu]
      rw [heq] at h
      rcases h with h | h <;> simp at h

/-- Witness for C10: updating a nonexistent id with both an invalid
email and an invalid age still yields `notFound`, not a 400. -/
theorem C10_witness :
    update_user st0 "nope" (some ⟨none, some "not-an-email", some (.jint 0)⟩) false =
      (.notFound, st0, [.dbRead]) :=
  (C10_update_checks_existence_first st0 "nope"
    ⟨none, some "not-an-email", some (.jint 0)⟩ false).1 (by decide)

end P4
